import Mathlib

/-!
Verification of the D-Sub connector drawing generator
(`scripts/generate_svgs.py` and `scripts/report_catalog.py`).

The Python functions are shallowly embedded: machine integers become `Nat`
(no overflow is reachable for these small quantities), floats become exact
rationals `ℚ`, fallible code returns `Option`/`Except`, and the one mutable
module-level object (the `SHELL_GEOMETRY` dictionary) is threaded as explicit
state where a claim is about it.
-/

namespace DSub

/-- Embeds `distribute_pins` (generate_svgs.py, lines 251–271).
Returns `none` where the Python raises `ValueError("rows must be 2, 3, or 4")`.
The `rows == 4` branch's loop `for i in range(rem): counts[i] += 1` is rendered
as an indexed map over `List.range 4`. -/
def distribute_pins (pin_count rows : Nat) : Option (List Nat) :=
  if rows = 2 then
    some [(pin_count + 1) / 2, pin_count / 2]
  else if rows = 3 then
    let base := pin_count / 3
    let rem := pin_count % 3
    if rem = 1 then some [base, base + 1, base]
    else if rem = 2 then some [base + 1, base, base + 1]
    else some [base, base, base]
  else if rows = 4 then
    let base := pin_count / 4
    let rem := pin_count % 4
    some ((List.range 4).map (fun i => if i < rem then base + 1 else base))
  else
    none

/-- Embeds `_distribute_contacts` (report_catalog.py, lines 191–200).
The Python guard `rows <= 0` returns `[]`; with `rows : Nat` that is the
`rows = 0` case.  The loop `for idx in range(rem): counts[idx] += 1` is
rendered as an indexed map over `List.range rows`. -/
def distribute_contacts (total_contacts rows : Nat) : List Nat :=
  if rows = 0 then []
  else
    let base := total_contacts / rows
    let rem := total_contacts % rows
    (List.range rows).map (fun idx => if idx < rem then base + 1 else base)

/-- Embeds `row_offsets_for_counts` (generate_svgs.py, lines 274–290).
Floats become exact rationals; `math.floor` becomes `Int.floor`.  The Python
list indexing `counts[i]` / `stagger[i]` (always in range there, the caller
passes lists of equal length) is rendered with `List.getD _ _ 0`, and the
loop `for idx, count in enumerate(counts)` as a map over
`List.range counts.length`.  `max(..., default=0)` over `Nat` counts is
`List.foldr max 0`. -/
def row_offsets_for_counts (counts : List Nat) (h_pitch : ℚ) (stagger : List ℚ) : List ℚ :=
  let non_stagger_indices :=
    (List.range counts.length).filter (fun i => decide (stagger.getD i 0 = 0))
  let stagger_indices :=
    (List.range counts.length).filter (fun i => !(decide (stagger.getD i 0 = 0)))
  let non_stagger_max : Nat := (non_stagger_indices.map (fun i => counts.getD i 0)).foldr max 0
  let stagger_max : Nat := (stagger_indices.map (fun i => counts.getD i 0)).foldr max 0
  (List.range counts.length).map (fun idx =>
    let count : ℚ := counts.getD idx 0
    let center_offset : ℚ :=
      if stagger.getD idx 0 = 0 then
        (⌊((non_stagger_max : ℚ) - count) * h_pitch / 2 / h_pitch⌋ : ℚ) * h_pitch
      else
        ((stagger_max : ℚ) - count) * h_pitch / 2
    stagger.getD idx 0 + center_offset)

/-- The maximum pin count among the rows of one stagger group: over rows `i`
with `stagger[i] = 0` when `nonStag` is `true`, over the others when `false`;
0 when the group is empty (the claim's `G` resp. `S`). -/
def group_max (counts : List Nat) (stagger : List ℚ) (nonStag : Bool) : Nat :=
  (((List.range counts.length).filter
      (fun i => decide (stagger.getD i 0 = 0) == nonStag)).map
    (fun i => counts.getD i 0)).foldr max 0

/-- One pin record as built by `generate_pin_positions` (generate_svgs.py,
line 322): sequential 1-based number, row index, and millimeter coordinates
(floats embedded as exact rationals). -/
structure Pin where
  n : Nat
  row : Nat
  x : ℚ
  y : ℚ
deriving DecidableEq, Repr

/-- `p["x"] = -p["x"]` (generate_svgs.py, lines 339–346): negates the x
coordinate and keeps number, row and y. -/
def negX (p : Pin) : Pin := { p with x := -p.x }

/-- The pins of one row: the inner loop of generate_svgs.py lines 320–323
(`x = i*h + row_offsets[r]`, `y = r*v`), with `n0` the sequential number of
the row's first pin. -/
def pinsForRow (r cnt : Nat) (off h v : ℚ) (n0 : Nat) : List Pin :=
  (List.range cnt).map (fun i => ⟨n0 + i, r, (i : ℚ) * h + off, (r : ℚ) * v⟩)

/-- The outer loop of generate_svgs.py lines 318–323: rows in order, the
running pin number `n0` advancing by each row's count (Python's `n += 1`
per pin). -/
def buildPinsAux (h v : ℚ) (offsets : List ℚ) : Nat → Nat → List Nat → List Pin
  | _, _, [] => []
  | r, n0, cnt :: rest =>
      pinsForRow r cnt (offsets.getD r 0) h v n0 ++
        buildPinsAux h v offsets (r + 1) (n0 + cnt) rest

/-- Python `min(...)` over a nonempty float list (value on `[]` is junk; the
embedding guards emptiness before use, where Python raises). -/
def qlistMin : List ℚ → ℚ
  | [] => 0
  | a :: t => t.foldl min a

/-- Python `max(...)` over a nonempty float list, as `qlistMin`. -/
def qlistMax : List ℚ → ℚ
  | [] => 0
  | a :: t => t.foldl max a

/-- The stagger list of generate_svgs.py lines 311–313: offset magnitude on
odd rows (`row_offset_mm` when given, else `h/2`), zero on even rows. -/
def mkStagger (rows : Nat) (h : ℚ) (rom : Option ℚ) : List ℚ :=
  match rom with
  | some r => (List.range rows).map (fun idx => if idx % 2 = 1 then r else 0)
  | none => (List.range rows).map (fun idx => if idx % 2 = 1 then h / 2 else 0)

/-- Lines 325–334 of generate_svgs.py: the re-centering loop — subtract the
bounding-box centroid `((min+max)/2` per axis) from every pin. -/
def centerPins (pins : List Pin) : List Pin :=
  let xs := pins.map Pin.x
  let ys := pins.map Pin.y
  let cx := (qlistMin xs + qlistMax xs) / 2
  let cy := (qlistMin ys + qlistMax ys) / 2
  pins.map (fun p => { p with x := p.x - cx, y := p.y - cy })

/-- Lines 304–334 of generate_svgs.py: everything in
`generate_pin_positions` before the gender/view mirroring — row counts
(derived when absent or empty, Python's falsy `row_counts or ...`),
validation (`raise` becomes `none`), offsets, pin construction
(`pins = buildPinsAux ...` is written inline), and the re-centering.
`min()`/`max()` on an empty pin list raise in Python, hence the `isEmpty`
guard. -/
def pin_layout_core (pin_count rows : Nat) (h v : ℚ) (row_counts : Option (List Nat))
    (row_offsets : Option (List ℚ)) (row_offset_mm : Option ℚ) : Option (List Pin) :=
  (match row_counts with
    | some cs => if cs.isEmpty then distribute_pins pin_count rows else some cs
    | none => distribute_pins pin_count rows).bind (fun counts =>
    if counts.sum ≠ pin_count then none
    else if counts.length ≠ rows then none
    else
      (match row_offsets with
        | none => some (row_offsets_for_counts counts h (mkStagger rows h row_offset_mm))
        | some os => if os.length ≠ rows then none else some os).bind (fun offsets =>
        if (buildPinsAux h v offsets 0 1 counts).isEmpty then none
        else some (centerPins (buildPinsAux h v offsets 0 1 counts))))

/-- Embeds `generate_pin_positions` (generate_svgs.py, lines 293–348):
the core layout (lines 304–334) followed by the two mirror steps in order —
gender (female negates x, lines 339–341), then view (solder negates x
again, lines 344–346). -/
def generate_pin_positions (pin_count rows : Nat) (h v : ℚ) (view gender : String)
    (row_counts : Option (List Nat)) (row_offsets : Option (List ℚ))
    (row_offset_mm : Option ℚ) : Option (List Pin) :=
  (pin_layout_core pin_count rows h v row_counts row_offsets row_offset_mm).map
    (fun centered =>
      let afterGender := if gender = "female" then centered.map negX else centered
      if view = "solder" then afterGender.map negX else afterGender)

/-- The four derived quantities of the mating-face opening outline. -/
structure Opening where
  h_eff : ℚ
  top_w : ℚ
  bottom_w : ℚ
  corner_r : ℚ
deriving DecidableEq, Repr

/-- Embeds the opening computation inside `generate_svg` (generate_svgs.py,
lines 475–497).  `clearance_x = 3.0`, `clearance_y = 2.8`; the taper angle
`side_angle_deg = 10.0` enters only through `math.tan(math.radians(10.0))`,
which is irrational, so that factor is the parameter `tanTaper`
(`tan 10° ≈ 0.17632698`); every other float is exact.  Python
`min(2.2, a, b)` is `min (22/10) (min a b)`. -/
def opening_geometry (opening_top_w opening_h outer_w pin_w pin_h tanTaper : ℚ) : Opening :=
  let clearance_x : ℚ := 3
  let clearance_y : ℚ := 28 / 10
  let opening_h_eff := max opening_h (pin_h + 2 * clearance_y)
  let opening_top_w_eff := max opening_top_w (pin_w + 2 * clearance_x)
  let top_w := min opening_top_w_eff (outer_w - 6)
  let bottom_w := max (top_w - 2 * tanTaper * opening_h_eff) (pin_w + clearance_x)
  let corner_r := min (22 / 10) (min (opening_h_eff * (22 / 100)) (top_w * (18 / 100)))
  ⟨opening_h_eff, top_w, bottom_w, corner_r⟩

/-- The tangent-length clamp of `rounded_polygon_path` (generate_svgs.py,
lines 200–201): Python `min(t, dist_prev * 0.49, dist_next * 0.49)`, with
`rawT` abstracting the irrational raw value `radius / tan(ang / 2)` and
`dPrev`, `dNext` abstracting the two adjacent edge lengths. -/
def clamped_tangent (rawT dPrev dNext : ℚ) : ℚ :=
  min rawT (min (dPrev * (49 / 100)) (dNext * (49 / 100)))

/-- The per-vertex fillet of `rounded_polygon_path` (generate_svgs.py,
lines 195–201): the vertex is skipped (`continue`) when
`ang = acos(max(-1, min(1, dot)))` is zero, which holds exactly when the
clamped dot product is 1, i.e. `1 ≤ dot`; otherwise the tangent length is
the clamped raw value. -/
def vertex_fillet (dot rawT dPrev dNext : ℚ) : Option ℚ :=
  if 1 ≤ dot then none
  else some (clamped_tangent rawT dPrev dNext)

/-- Python `str.strip()` whitespace test, for the ASCII whitespace
characters (code points 32, 9, 10, 13, 11, 12).  Unicode-only whitespace
is omitted: every such character is non-alphanumeric, so the later regex
replacement treats it the same way the strip would. -/
def pyIsSpace (c : Char) : Bool :=
  c.toNat = 32 || c.toNat = 9 || c.toNat = 10 || c.toNat = 13 ||
    c.toNat = 11 || c.toNat = 12

/-- `stem.strip()` (generate_svgs.py, line 352): drop leading and trailing
whitespace. -/
def pyStrip (l : List Char) : List Char :=
  ((l.dropWhile pyIsSpace).reverse.dropWhile pyIsSpace).reverse

/-- `str.lower()` on one character for the ASCII range (code points 65–90
map 32 up).  Non-ASCII case mappings are immaterial here: every character
outside `[a-z0-9]` is replaced by an underscore right after. -/
def pyToLower (c : Char) : Char :=
  if 65 ≤ c.toNat && c.toNat ≤ 90 then Char.ofNat (c.toNat + 32) else c

/-- The regex class `[a-z0-9]` (code points 97–122 and 48–57). -/
def isLowerAlnum (c : Char) : Bool :=
  (97 ≤ c.toNat && c.toNat ≤ 122) || (48 ≤ c.toNat && c.toNat ≤ 57)

/-- `re.sub` for a negated-class regex `[^X]+ → r`: every maximal run of
characters failing `p` becomes the single character `r`, emitted where the
run ends (the next character satisfies `p`, or the input ends). -/
def replaceRuns (p : Char → Bool) (r : Char) : List Char → List Char
  | [] => []
  | [c] => if p c then [c] else [r]
  | c :: d :: rest =>
    if p c then c :: replaceRuns p r (d :: rest)
    else if p d then r :: replaceRuns p r (d :: rest)
    else replaceRuns p r (d :: rest)

/-- `str.strip("_")` — drop every leading and trailing copy of `r`. -/
def stripChar (r : Char) (l : List Char) : List Char :=
  ((l.dropWhile (fun c => c == r)).reverse.dropWhile (fun c => c == r)).reverse

/-- Embeds `sanitize_stem` (generate_svgs.py, lines 351–355) on strings as
character lists: `strip()`, `lower()`, `re.sub("[^a-z0-9]+", "_", ·)`,
`re.sub("_+", "_", ·)`, `strip("_")`. -/
def sanitize_stem (l : List Char) : List Char :=
  let s1 := (pyStrip l).map pyToLower
  let s2 := replaceRuns isLowerAlnum '_' s1
  let s3 := replaceRuns (fun c => !(c == '_')) '_' s2
  stripChar '_' s3

/-- The normal form the spec ascribes to sanitized stems: only lowercase
ASCII alphanumerics and underscores, no two adjacent underscores (each
maximal non-alphanumeric run contributed a single one), and no leading or
trailing underscore. -/
def SanitizedForm (l : List Char) : Prop :=
  (∀ c ∈ l, isLowerAlnum c = true ∨ c = '_') ∧
  List.Chain' (fun a b => ¬(a = '_' ∧ b = '_')) l ∧
  l.head? ≠ some '_' ∧ l.getLast? ≠ some '_'

/-- One row of the module-level `SHELL_GEOMETRY` table (generate_svgs.py,
lines 53–74): nominal opening top width, opening height and flange height
for one shell-size letter and gender. -/
structure ShellGeom where
  opening_top_w : ℚ
  opening_h : ℚ
  flange_h : ℚ
deriving DecidableEq, Repr

/-- The nested-dictionary shape of `SHELL_GEOMETRY`, flattened to rows
keyed by (shell letter, gender). -/
abbrev ShellTable := List (String × String × ShellGeom)

/-- The `SHELL_GEOMETRY` constant (generate_svgs.py, lines 53–74). -/
def SHELL_GEOMETRY : ShellTable :=
  [("E", "male", ⟨169/10, 83/10, 125/10⟩),
   ("E", "female", ⟨163/10, 79/10, 125/10⟩),
   ("A", "male", ⟨2525/100, 83/10, 125/10⟩),
   ("A", "female", ⟨246/10, 79/10, 125/10⟩),
   ("B", "male", ⟨3895/100, 83/10, 125/10⟩),
   ("B", "female", ⟨384/10, 79/10, 125/10⟩),
   ("C", "male", ⟨554/10, 83/10, 125/10⟩),
   ("C", "female", ⟨548/10, 79/10, 125/10⟩),
   ("D", "male", ⟨528/10, 1115/100, 153/10⟩),
   ("D", "female", ⟨522/10, 109/10, 153/10⟩)]

/-- `SHELL_GEOMETRY[size][gender]`; `none` where Python raises `KeyError`. -/
def shell_lookup (tbl : ShellTable) (size gender : String) : Option ShellGeom :=
  (tbl.find? (fun e => e.1 == size && e.2.1 == gender)).map (fun e => e.2.2)

/-- A formatted text fragment: Python f-string pieces with the numeric
values kept exact (`q2`/`q3`/`q1`/`q0` stand for the `.2f`/`.3f`/`.1f`/
`.0f` conversions, `n` for `str(int(...))`; decimal rendering itself is
pure formatting and is not modeled). -/
inductive TextVal where
  | lit (s : String)
  | cat (a b : TextVal)
  | q0 (x : ℚ)
  | q1 (x : ℚ)
  | q2 (x : ℚ)
  | q3 (x : ℚ)
  | n (k : Nat)
deriving Repr

/-- Arrowhead direction of `add_arrow` (generate_svgs.py, lines 154–167).
The call sites only use the four literals; the unknown-direction
`ValueError` branch is unreachable. -/
inductive Dir where
  | left
  | right
  | up
  | down
deriving DecidableEq, Repr

/-- One drawn element, carrying the geometry the corresponding `add_*`
helper of generate_svgs.py puts into the SVG node.  The `path` element
keeps the rounded-opening input data (vertices and fillet radius) in place
of the serialized path string of `rounded_polygon_path`. -/
inductive SvgElem where
  | line (x1 y1 x2 y2 sw : ℚ) (dash : Option String)
  | circle (cx cy r sw : ℚ) (fill : String)
  | text (x y : ℚ) (content : TextVal) (size : ℚ) (anchor baseline : String)
      (weight : Option String)
  | polygon (pts : List (ℚ × ℚ))
  | rect (x y w h rx : ℚ)
  | path (pts : List (ℚ × ℚ)) (corner_r : ℚ)
deriving Repr

/-- The structured content of one generated document: canvas size and the
named layers in creation order (generate_svgs.py, lines 399–429). -/
structure Doc where
  width : ℚ
  height : ℚ
  layers : List (String × List SvgElem)
deriving Repr

/-- `add_arrow` (generate_svgs.py, lines 154–167): the three polygon
vertices per direction. -/
def arrow_pts (x y : ℚ) (dir : Dir) (size : ℚ) : List (ℚ × ℚ) :=
  match dir with
  | .left => [(x, y), (x + size, y - size/2), (x + size, y + size/2)]
  | .right => [(x, y), (x - size, y - size/2), (x - size, y + size/2)]
  | .up => [(x, y), (x - size/2, y + size), (x + size/2, y + size)]
  | .down => [(x, y), (x - size/2, y - size), (x + size/2, y - size)]

/-- `add_arrow` as an element. -/
def add_arrow (x y : ℚ) (dir : Dir) (size : ℚ) : SvgElem :=
  .polygon (arrow_pts x y dir size)

/-- `dim_horizontal` (generate_svgs.py, lines 219–225). -/
def dim_horizontal (x1 x2 y_dim y_ref : ℚ) (t : TextVal) : List SvgElem :=
  [.line x1 y_ref x1 y_dim (18/100) none,
   .line x2 y_ref x2 y_dim (18/100) none,
   .line x1 y_dim x2 y_dim (18/100) none,
   add_arrow x1 y_dim .right (8/10),
   add_arrow x2 y_dim .left (8/10),
   .text ((x1 + x2)/2) (y_dim - 12/10) t 2 "middle" "alphabetic" none]

/-- `dim_vertical` (generate_svgs.py, lines 228–234). -/
def dim_vertical (y1 y2 x_dim x_ref : ℚ) (t : TextVal) : List SvgElem :=
  [.line x_ref y1 x_dim y1 (18/100) none,
   .line x_ref y2 x_dim y2 (18/100) none,
   .line x_dim y1 x_dim y2 (18/100) none,
   add_arrow x_dim y1 .down (8/10),
   add_arrow x_dim y2 .up (8/10),
   .text (x_dim + 12/10) ((y1 + y2)/2) t 2 "start" "middle" none]

/-- `dim_h_simple` (generate_svgs.py, lines 237–241). -/
def dim_h_simple (x1 x2 y : ℚ) (t : TextVal) : List SvgElem :=
  [.line x1 y x2 y (18/100) (some "2 1"),
   add_arrow x1 y .right (3/4),
   add_arrow x2 y .left (3/4),
   .text ((x1 + x2)/2) (y - 1) t (18/10) "middle" "alphabetic" none]

/-- `dim_v_simple_left` (generate_svgs.py, lines 244–248). -/
def dim_v_simple_left (y1 y2 x : ℚ) (t : TextVal) : List SvgElem :=
  [.line x y1 x y2 (18/100) (some "2 1"),
   add_arrow x y1 .down (3/4),
   add_arrow x y2 .up (3/4),
   .text (x - 1) ((y1 + y2)/2) t (18/10) "end" "middle" none]

/-- The greedy accumulation loop of `wrap_text` (generate_svgs.py,
lines 363–372). -/
def wrap_text_go (max_chars : Nat) : List String → String → List String
  | [], current => [current]
  | w :: ws, current =>
    let candidate := current ++ " " ++ w
    if candidate.length ≤ max_chars then wrap_text_go max_chars ws candidate
    else current :: wrap_text_go max_chars ws w

/-- `wrap_text` (generate_svgs.py, lines 358–373).  Python `text.split()`
splits on whitespace runs; spaces are the only separator that occurs in
the annotation strings, so splitting on a space and discarding empties is
the same partition. -/
def wrap_text (text : String) (max_chars : Nat) : List String :=
  match (text.splitOn " ").filter (fun w => w != "") with
  | [] => []
  | w :: ws => wrap_text_go max_chars ws w

/-- `add_info_block` (generate_svgs.py, lines 376–384): title and lines as
elements, plus the advanced y cursor. -/
def add_info_block (x y : ℚ) (title : String) (ls : List TextVal) :
    List SvgElem × ℚ :=
  if ls.isEmpty then ([], y)
  else
    (SvgElem.text x y (.lit title) (205/100) "start" "hanging" (some "bold") ::
      ((List.range ls.length).zip ls).map (fun pr =>
        SvgElem.text x (y + 29/10 + (pr.1 : ℚ) * (24/10)) pr.2 (18/10) "start" "hanging" none),
     y + 29/10 + (ls.length : ℚ) * (24/10) + 14/10)

/-- Python `sorted(row_pins, key=lambda pp: pp["x"])` — stable sort on the
x coordinate. -/
def sortByX (ps : List Pin) : List Pin :=
  ps.mergeSort (fun a b => decide (a.x ≤ b.x))

/-- The insert block of one raw catalog connector (the dictionary shape
`load_specs` and `validate_connector` read; absent keys are `none`). -/
structure InsertSpec where
  total_contacts : Option Nat
  rows : Option Nat
  contacts_per_row : Option (List Nat)
  pitch_x : Option ℚ
  pitch_y : Option ℚ
  row_offset_mm : Option ℚ
  contact_size : Option String
  numbering_front : Option String
  numbering_solder : Option String
deriving DecidableEq, Repr

/-- The flange block of one raw catalog connector. -/
structure FlangeSpec where
  mounting_hole_spacing_mm : Option ℚ
  outer_width_mm : Option ℚ
  outer_height_mm : Option ℚ
  mounting_hole_diameter_mm : Option ℚ
deriving DecidableEq, Repr

/-- The panel-cutout trapezoid dictionary: the three keys `generate_svg`
always reads are required, the two it reads conditionally are optional. -/
structure PanelCutout where
  top_width : ℚ
  bottom_width : ℚ
  height : ℚ
  corner_radius : Option ℚ
  side_angle_deg : Option ℚ
deriving DecidableEq, Repr

/-- One raw catalog connector as consumed by `validate_connector` and
`load_specs` (generate_svgs.py, lines 615–694). -/
structure CatalogItem where
  id : String
  name : Option String
  designation : Option String
  density : Option String
  asset_tag : Option String
  insert : InsertSpec
  shell_letter : Option String
  panel_cutout : Option PanelCutout
  flange : FlangeSpec
  row_offsets : Option (List ℚ)
  contact_male_min : Option ℚ
  contact_male_max : Option ℚ
  contact_female_entry : Option ℚ
  elec_max_current : Option ℚ
  elec_dwv : Option ℚ
  standards : List String
deriving DecidableEq, Repr

/-- Python `x or default` for an optional int: `None` and `0` are falsy. -/
def pyOrNat (a : Option Nat) (b : Nat) : Nat :=
  match a with
  | some n => if n = 0 then b else n
  | none => b

/-- Python `x or default` for an optional string: `None` and `""` are
falsy. -/
def pyOrStr (a : Option String) (b : String) : String :=
  match a with
  | some s => if s = "" then b else s
  | none => b

/-- Embeds `validate_connector` (generate_svgs.py, lines 615–629): the two
tier-1 checks, each guarded by `if row_counts and ...` (an empty or absent
`contacts_per_row` list is falsy and produces no error). -/
def validate_connector (item : CatalogItem) : List String :=
  let cid := item.id
  let pins := pyOrNat item.insert.total_contacts 0
  let row_counts := (item.insert.contacts_per_row).getD []
  let rows := pyOrNat item.insert.rows row_counts.length
  (if row_counts ≠ [] ∧ row_counts.sum ≠ pins then
    [cid ++ ": sum(contacts_per_row)=" ++ toString row_counts.sum ++
      " != total_contacts=" ++ toString pins]
  else []) ++
  (if row_counts ≠ [] ∧ rows ≠ row_counts.length then
    [cid ++ ": rows=" ++ toString rows ++ " != len(contacts_per_row)=" ++
      toString row_counts.length]
  else [])

/-- The normalized record `load_specs` builds (the `DSubSpec` dataclass,
generate_svgs.py, lines 23–50). -/
structure DSubSpec where
  label : String
  designation : String
  density : String
  file_tag : String
  pin_count : Nat
  rows : Nat
  row_counts : Option (List Nat)
  row_offsets : Option (List ℚ)
  row_offset_mm : Option ℚ
  shell_size : Option String
  mounting_hole_pitch_mm : ℚ
  flange_outer_width_mm : ℚ
  shell_height_mm : Option ℚ
  screw_hole_dia_mm : Option ℚ
  h_pitch_mm : ℚ
  v_pitch_mm : ℚ
  contact_size : String
  numbering_front : String
  numbering_solder : String
  panel_cutout : Option PanelCutout
  contact_male_min_mm : Option ℚ
  contact_male_max_mm : Option ℚ
  contact_female_entry_min_mm : Option ℚ
  electrical_max_current_a : Option ℚ
  electrical_dwv_v : Option ℚ
  standards : List String
deriving Repr

/-- The per-item constructor call inside `load_specs` (generate_svgs.py,
lines 655–692).  `int(None)` / `float(None)` raise `TypeError`, so a
missing required field is `none`. -/
def build_spec (item : CatalogItem) : Option DSubSpec := do
  let pin_count ← item.insert.total_contacts
  let rows ← item.insert.rows
  let hole_spacing ← item.flange.mounting_hole_spacing_mm
  let outer_w ← item.flange.outer_width_mm
  let outer_h ← item.flange.outer_height_mm
  let hole_dia ← item.flange.mounting_hole_diameter_mm
  let px ← item.insert.pitch_x
  let py ← item.insert.pitch_y
  pure
    { label := pyOrStr item.name (pyOrStr item.designation item.id)
      designation := pyOrStr item.designation item.id
      density := pyOrStr item.density "standard"
      file_tag := pyOrStr item.asset_tag item.id
      pin_count := pin_count
      rows := rows
      row_counts := item.insert.contacts_per_row
      row_offsets := item.row_offsets
      row_offset_mm := item.insert.row_offset_mm
      shell_size := item.shell_letter
      mounting_hole_pitch_mm := hole_spacing
      flange_outer_width_mm := outer_w
      shell_height_mm := some outer_h
      screw_hole_dia_mm := some hole_dia
      h_pitch_mm := px
      v_pitch_mm := py
      contact_size := pyOrStr item.insert.contact_size "20"
      numbering_front := pyOrStr item.insert.numbering_front ""
      numbering_solder := pyOrStr item.insert.numbering_solder ""
      panel_cutout := item.panel_cutout
      contact_male_min_mm := item.contact_male_min
      contact_male_max_mm := item.contact_male_max
      contact_female_entry_min_mm := item.contact_female_entry
      electrical_max_current_a := item.elec_max_current
      electrical_dwv_v := item.elec_dwv
      standards := item.standards }

/-- How a `load_specs` run can abort before producing specs: the batched
tier-1 validation `SystemExit`, or a `TypeError` from a missing required
field while building a record. -/
inductive LoadAbort where
  | validation (errs : List String)
  | typeError
deriving DecidableEq, Repr

/-- Embeds `load_specs` (generate_svgs.py, lines 632–694): collect every
connector error first, abort with all of them if any exist, only then
build the spec records. -/
def load_specs (catalog : List CatalogItem) : Except LoadAbort (List DSubSpec) :=
  let all_errors := (catalog.map validate_connector).flatten
  if all_errors ≠ [] then .error (.validation all_errors)
  else
    match catalog.mapM build_spec with
    | some specs => .ok specs
    | none => .error .typeError

/-- The document content assembled by `generate_svg` (generate_svgs.py,
lines 387–612).  Exactly the geometry and text the Python code computes,
with: floats as exact rationals; `math.tan(math.radians(10.0))` as the
parameter `tanTaper`; formatted numbers kept exact inside `TextVal`;
failures (`KeyError` on an unknown shell key, spec-validation `raise`,
indexing an empty row) as `none`.  Serialization to SVG text is pure
formatting and is not modeled. -/
def generate_svg_doc (tbl : ShellTable) (spec : DSubSpec) (gender view : String)
    (include_caption : Bool) (tanTaper : ℚ) : Option Doc := do
  let outer_w := spec.flange_outer_width_mm
  let size ← spec.shell_size
  let geom ← shell_lookup tbl size gender
  -- `spec.shell_height_mm or SHELL_GEOMETRY[...]["flange_h"]`: None and 0.0 are falsy
  let outer_h := match spec.shell_height_mm with
    | some hh => if hh = 0 then geom.flange_h else hh
    | none => geom.flange_h
  let opening_top_w := geom.opening_top_w
  let opening_h := geom.opening_h
  let hole_pitch := spec.mounting_hole_pitch_mm
  let width := 38 + outer_w + 148
  let height := 30 + outer_h + 48
  let ox : ℚ := 38
  let oy : ℚ := 30
  let cx := ox + outer_w / 2
  let cy := oy + outer_h / 2
  let base_rect := SvgElem.rect ox oy outer_w outer_h (12/10)
  -- `spec.screw_hole_dia_mm or 4.0`
  let hole_dia := match spec.screw_hole_dia_mm with
    | some d => if d = 0 then 4 else d
    | none => 4
  let hole_r := hole_dia / 2
  let holes := [SvgElem.circle (cx - hole_pitch/2) cy hole_r (25/100) "none",
                SvgElem.circle (cx + hole_pitch/2) cy hole_r (25/100) "none"]
  let pins ← generate_pin_positions spec.pin_count spec.rows spec.h_pitch_mm
    spec.v_pitch_mm view gender spec.row_counts spec.row_offsets spec.row_offset_mm
  let pxs := pins.map Pin.x
  let pys := pins.map Pin.y
  let pin_w := qlistMax pxs - qlistMin pxs
  let pin_h := qlistMax pys - qlistMin pys
  let og := opening_geometry opening_top_w opening_h outer_w pin_w pin_h tanTaper
  let top_y := cy - og.h_eff / 2
  let bot_y := cy + og.h_eff / 2
  let trap := [(cx - og.top_w/2, top_y), (cx + og.top_w/2, top_y),
               (cx + og.bottom_w/2, bot_y), (cx - og.bottom_w/2, bot_y)]
  let opening_elem := SvgElem.path trap og.corner_r
  let pin_r : ℚ := if spec.rows = 2 then 55/100
    else if spec.rows = 3 then 45/100 else 40/100
  let pin_fill := if gender = "male" then "black" else "white"
  let pin_elems := pins.map (fun p =>
    SvgElem.circle (cx + p.x) (cy + p.y) pin_r (18/100) pin_fill)
  -- pin-number labels; `row_pins[0]` on an empty row raises `IndexError`
  let labels ← (List.range spec.rows).mapM (fun r => do
    let rp := sortByX (pins.filter (fun p => p.row == r))
    let left ← rp.head?
    let right ← rp.getLast?
    pure [SvgElem.text (ox - 4) (cy + left.y) (.n left.n) (22/10) "end" "middle"
            (some "bold"),
          SvgElem.text (ox + outer_w + 4) (cy + right.y) (.n right.n) (22/10) "start"
            "middle" (some "bold")])
  let flange_dims :=
    dim_horizontal ox (ox + outer_w) (oy - 16) oy (.cat (.q2 outer_w) (.lit " mm")) ++
    dim_horizontal (cx - hole_pitch/2) (cx + hole_pitch/2) (oy + outer_h + 16) cy
      (.cat (.q2 hole_pitch) (.lit " mm")) ++
    dim_vertical oy (oy + outer_h) (ox + outer_w + 12) (ox + outer_w)
      (.cat (.q2 outer_h) (.lit " mm"))
  let top_row := sortByX (pins.filter (fun p => p.row == 0))
  let pitch_dim_h :=
    if 2 ≤ top_row.length then
      dim_h_simple (cx + (top_row.getD 0 ⟨0, 0, 0, 0⟩).x)
        (cx + (top_row.getD 1 ⟨0, 0, 0, 0⟩).x) (top_y - 35/10)
        (.cat (.lit "H pitch=") (.cat (.q3 spec.h_pitch_mm) (.lit " mm")))
    else []
  let pitch_block ←
    if 2 ≤ spec.rows then do
      let r0 ← (sortByX (pins.filter (fun p => p.row == 0))).head?
      let r1 ← (sortByX (pins.filter (fun p => p.row == 1))).head?
      let dx := |(cx + r1.x) - (cx + r0.x)|
      -- `spec.row_offset_mm if spec.row_offset_mm is not None else dx`
      let offset_val := match spec.row_offset_mm with
        | some o => o
        | none => dx
      pure (dim_v_simple_left (cy + r0.y) (cy + r1.y) (ox - 18)
          (.cat (.lit "V pitch=") (.cat (.q3 spec.v_pitch_mm) (.lit " mm"))) ++
        dim_h_simple (cx + r0.x) (cx + r1.x) (cy + og.h_eff/2 + 75/10)
          (.cat (.lit "Row offset=") (.cat (.q3 offset_val) (.lit " mm"))))
    else pure []
  let info_x := ox + outer_w + 26
  let row_counts_txt :=
    String.intercalate "-" (((spec.row_counts).getD []).map toString)
  let insert_lines : List TextVal :=
    [.cat (.lit "Density: ") (.lit spec.density),
     .cat (.lit "Rows: ") (.cat (.n spec.rows)
       (.cat (.lit " (") (.cat (.lit row_counts_txt) (.lit ")")))),
     .cat (.lit "Contact size: ") (.lit spec.contact_size),
     .cat (.lit "Pitch X/Y: ") (.cat (.q3 spec.h_pitch_mm)
       (.cat (.lit "/") (.cat (.q3 spec.v_pitch_mm) (.lit " mm"))))] ++
    (match spec.row_offset_mm with
     | some o => [TextVal.cat (.lit "Offset: ") (.cat (.q3 o) (.lit " mm"))]
     | none => []) ++
    (if spec.numbering_front ≠ "" then
      ((wrap_text ("Front: " ++ spec.numbering_front) 34).take 2).map TextVal.lit
    else [])
  let insertBlock := add_info_block info_x (oy + 8/10) "Insert" insert_lines
  let contact_lines : List TextVal :=
    (match spec.contact_male_min_mm, spec.contact_male_max_mm with
     | some a, some b =>
       [TextVal.cat (.lit "Male pin: ")
         (.cat (.q3 a) (.cat (.lit "-") (.cat (.q3 b) (.lit " mm"))))]
     | _, _ => []) ++
    (match spec.contact_female_entry_min_mm with
     | some a => [TextVal.cat (.lit "Female entry >= ") (.cat (.q3 a) (.lit " mm"))]
     | none => [])
  let contactBlock := add_info_block info_x insertBlock.2 "Contacts" contact_lines
  let electrical_lines : List TextVal :=
    (match spec.electrical_max_current_a with
     | some a => [TextVal.cat (.lit "Current: ") (.cat (.q1 a) (.lit " A/contact"))]
     | none => []) ++
    (match spec.electrical_dwv_v with
     | some a => [TextVal.cat (.lit "DWV: ") (.cat (.q0 a) (.lit " V RMS"))]
     | none => [])
  let elecBlock := add_info_block info_x contactBlock.2 "Electrical" electrical_lines
  let standards_lines : List TextVal :=
    ((spec.standards.map (fun s => wrap_text s 34)).flatten).map TextVal.lit
  let stdBlock := add_info_block info_x elecBlock.2 "Standards" standards_lines
  let panel_elems ← match spec.panel_cutout with
    | some panel => do
      let l1 := TextVal.cat (.lit "T/B/H: ")
        (.cat (.q2 panel.top_width) (.cat (.lit "/")
          (.cat (.q2 panel.bottom_width) (.cat (.lit "/")
            (.cat (.q2 panel.height) (.lit " mm"))))))
      let ls ← match panel.corner_radius with
        | some r => do
          let ang ← panel.side_angle_deg
          pure [l1, TextVal.cat (.lit "Angle ")
            (.cat (.q1 ang) (.cat (.lit " deg, R ") (.cat (.q2 r) (.lit " mm"))))]
        | none => pure [l1]
      pure (add_info_block info_x stdBlock.2 "Panel cutout" ls).1
    | none => pure []
  let caption_elems := if include_caption then
      [SvgElem.text cx (oy + outer_h + 48 - 8)
        (.cat (.lit spec.designation)
          (.cat (.lit " - ") (.cat (.lit gender) (.cat (.lit " - ") (.lit view)))))
        (22/10) "middle" "middle" none]
    else []
  pure
    { width := width
      height := height
      layers :=
        [("base", base_rect :: holes ++ [opening_elem] ++ pin_elems),
         ("pin_labels", labels.flatten),
         ("flange_dimensions", flange_dims),
         ("pitch_dimensions", pitch_dim_h ++ pitch_block),
         ("panel_cutout", panel_elems),
         ("insert_info", insertBlock.1),
         ("contacts_info", contactBlock.1),
         ("electrical_info", elecBlock.1),
         ("standards_info", stdBlock.1),
         ("caption", caption_elems)] }

/-- Embeds `generate_svg` with the one module-level mutable object — the
`SHELL_GEOMETRY` dictionary — threaded as explicit state: the function
receives the table, reads it, and hands it back.  No statement in
generate_svgs.py lines 387–612 assigns into the table (or into `spec`,
a frozen dataclass), which the embedding renders by returning the received
table itself. -/
def generate_svg (tbl : ShellTable) (spec : DSubSpec) (gender view : String)
    (include_caption : Bool) (tanTaper : ℚ) : Option Doc × ShellTable :=
  (generate_svg_doc tbl spec gender view include_caption tanTaper, tbl)

/-- The write loop of `generate_all` (generate_svgs.py, lines 702–711)
over the flattened (spec, gender, view) jobs: each success appends a file
(sanitized stem and document); a raising `generate_svg` stops the loop,
leaving the files written so far (`false` marks the aborted run). -/
def render_seq (cap : Bool) (tanTaper : ℚ) :
    List (DSubSpec × String × String) → List (String × Doc) × Bool
  | [] => ([], true)
  | (s, g, v) :: rest =>
    match (generate_svg SHELL_GEOMETRY s g v cap tanTaper).1 with
    | some doc =>
      let out := render_seq cap tanTaper rest
      ((String.mk (sanitize_stem (s.file_tag ++ "_" ++ g ++ "_" ++ v).toList) ++ ".svg",
        doc) :: out.1, out.2)
    | none => ([], false)

/-- The gender × view product of `generate_all` (genders before views,
as iterated there). -/
def spec_jobs (specs : List DSubSpec) : List (DSubSpec × String × String) :=
  (specs.map (fun s =>
    [(s, "male", "outside"), (s, "male", "solder"),
     (s, "female", "outside"), (s, "female", "solder")])).flatten

/-- Embeds `generate_all` (generate_svgs.py, lines 697–711): load and
validate the whole catalog first; only when that succeeds render the
spec × gender × view product. -/
def generate_all (catalog : List CatalogItem) (include_caption : Bool)
    (tanTaper : ℚ) : Except LoadAbort (List (String × Doc) × Bool) :=
  match load_specs catalog with
  | .error e => .error e
  | .ok specs => .ok (render_seq include_caption tanTaper (spec_jobs specs))

/-- A fixture: a connector whose `contacts_per_row` is present but empty
while `total_contacts` is 5 and `rows` is 2 (all required build fields
present). -/
def item_empty_counts : CatalogItem :=
  { id := "bad-empty"
    name := none
    designation := none
    density := none
    asset_tag := none
    insert :=
      { total_contacts := some 5
        rows := some 2
        contacts_per_row := some []
        pitch_x := some (277/100)
        pitch_y := some (284/100)
        row_offset_mm := none
        contact_size := none
        numbering_front := none
        numbering_solder := none }
    shell_letter := some "E"
    panel_cutout := none
    flange :=
      { mounting_hole_spacing_mm := some 25
        outer_width_mm := some (309/10)
        outer_height_mm := some (125/10)
        mounting_hole_diameter_mm := some 3 }
    row_offsets := none
    contact_male_min := none
    contact_male_max := none
    contact_female_entry := none
    elec_max_current := none
    elec_dwv := none
    standards := [] }

/-- A fixture: a connector whose `contacts_per_row` sums to 4 while
`total_contacts` is 5. -/
def item_bad_sum : CatalogItem :=
  { id := "bad-sum"
    name := none
    designation := none
    density := none
    asset_tag := none
    insert :=
      { total_contacts := some 5
        rows := some 2
        contacts_per_row := some [2, 2]
        pitch_x := some (277/100)
        pitch_y := some (284/100)
        row_offset_mm := none
        contact_size := none
        numbering_front := none
        numbering_solder := none }
    shell_letter := some "E"
    panel_cutout := none
    flange :=
      { mounting_hole_spacing_mm := some 25
        outer_width_mm := some (309/10)
        outer_height_mm := some (125/10)
        mounting_hole_diameter_mm := some 3 }
    row_offsets := none
    contact_male_min := none
    contact_male_max := none
    contact_female_entry := none
    elec_max_current := none
    elec_dwv := none
    standards := [] }

/-- A fixture: a DE-9-like spec record, as `load_specs` would build it. -/
def sample_spec : DSubSpec :=
  { label := "DE-9"
    designation := "DE-9"
    density := "standard"
    file_tag := "de_9"
    pin_count := 9
    rows := 2
    row_counts := some [5, 4]
    row_offsets := none
    row_offset_mm := some (137/100)
    shell_size := some "E"
    mounting_hole_pitch_mm := 25
    flange_outer_width_mm := 309/10
    shell_height_mm := some (125/10)
    screw_hole_dia_mm := some 3
    h_pitch_mm := 277/100
    v_pitch_mm := 284/100
    contact_size := "20"
    numbering_front := ""
    numbering_solder := ""
    panel_cutout := none
    contact_male_min_mm := none
    contact_male_max_mm := none
    contact_female_entry_min_mm := none
    electrical_max_current_a := none
    electrical_dwv_v := none
    standards := [] }

end DSub

open DSub

/-- **C1.** For every positive `pin_count` n, `distribute_pins` returns:
for rows=2, `[⌈n/2⌉, ⌊n/2⌋]`; for rows=3 with base b = n/3, `[b,b,b]` when
n%3=0, `[b,b+1,b]` when n%3=1, `[b+1,b,b+1]` when n%3=2; for rows=4, base
per row with each of the first n%4 rows getting one extra pin; any other
rows value fails.  `distribute_pins 50 3 = [17,16,17]`,
`distribute_pins 9 2 = [5,4]`, and every returned list sums to n with any
two entries differing by at most 1. -/
theorem distribute_pins_spec (n : Nat) (hn : 0 < n) :
    distribute_pins n 2 = some [(n + 1) / 2, n / 2] ∧
    (n % 3 = 0 → distribute_pins n 3 = some [n / 3, n / 3, n / 3]) ∧
    (n % 3 = 1 → distribute_pins n 3 = some [n / 3, n / 3 + 1, n / 3]) ∧
    (n % 3 = 2 → distribute_pins n 3 = some [n / 3 + 1, n / 3, n / 3 + 1]) ∧
    distribute_pins n 4 =
      some ((List.range 4).map (fun i => if i < n % 4 then n / 4 + 1 else n / 4)) ∧
    (∀ r, r ≠ 2 → r ≠ 3 → r ≠ 4 → distribute_pins n r = none) ∧
    distribute_pins 50 3 = some [17, 16, 17] ∧
    distribute_pins 9 2 = some [5, 4] ∧
    (∀ r l, distribute_pins n r = some l →
      l.sum = n ∧ ∀ a ∈ l, ∀ b ∈ l, a ≤ b + 1) := by
  refine ⟨?_, ?_, ?_, ?_, ?_, ?_, by decide, by decide, ?_⟩
  · simp [distribute_pins]
  · intro h3; simp [distribute_pins, h3]
  · intro h3; simp [distribute_pins, h3]
  · intro h3; simp [distribute_pins, h3]
  · simp [distribute_pins]
  · intro r h2 h3 h4; simp [distribute_pins, h2, h3, h4]
  · intro r l hl
    by_cases h2 : r = 2
    · subst h2
      simp only [distribute_pins, if_true, reduceIte, Option.some.injEq] at hl
      subst hl
      constructor
      · simp; omega
      · intro a ha b hb
        simp at ha hb
        rcases ha with ha | ha <;> rcases hb with hb | hb <;> omega
    · by_cases h3 : r = 3
      · subst h3
        have hmod : n % 3 = 0 ∨ n % 3 = 1 ∨ n % 3 = 2 := by omega
        rcases hmod with hm | hm | hm <;>
          · simp [distribute_pins, hm] at hl
            subst hl
            refine ⟨by simp; omega, ?_⟩
            intro a ha b hb
            simp at ha hb
            omega
      · by_cases h4 : r = 4
        · subst h4
          simp [distribute_pins] at hl
          subst hl
          constructor
          · have hr : List.range 4 = [0, 1, 2, 3] := by decide
            rw [hr]
            simp only [List.map_cons, List.map_nil, List.sum_cons, List.sum_nil]
            have h4' : n % 4 < 4 := Nat.mod_lt _ (by omega)
            interval_cases h : n % 4 <;> simp_all <;> omega
          · intro a ha b hb
            simp only [List.mem_map, List.mem_range] at ha hb
            obtain ⟨i, -, hi⟩ := ha
            obtain ⟨j, -, hj⟩ := hb
            by_cases hia : i < n % 4 <;> by_cases hjb : j < n % 4 <;>
              simp [hia, hjb] at hi hj <;> omega
        · simp [distribute_pins, h2, h3, h4] at hl

/-- Witness for C1 at n = 9. -/
theorem distribute_pins_spec_witness :
    distribute_pins 9 2 = some [(9 + 1) / 2, 9 / 2] :=
  (distribute_pins_spec 9 (by decide)).1

/-- **C3, counterexample.** The drawing engine's distribution rule and the
catalog normalizer's derivation rule do NOT agree for every
`pin_count ≥ 1` and `rows ∈ {2,3,4}`: at `pin_count = 50, rows = 3` the
renderer gives the extra pins to the first and last row (`[17,16,17]`)
while the normalizer gives them to the first rows in order (`[17,17,16]`). -/
theorem distribute_disagree_50_3 :
    distribute_pins 50 3 ≠ some (distribute_contacts 50 3) := by decide

/-- **C3, amended.** The two distribution rules agree for rows = 2 and
rows = 4 at every `pin_count ≥ 1`, and for rows = 3 exactly when
`pin_count % 3 = 0`; for rows = 3 with a nonzero remainder they differ. -/
theorem distribute_pins_eq_distribute_contacts_iff (n : Nat) (hn : 1 ≤ n) :
    distribute_pins n 2 = some (distribute_contacts n 2) ∧
    distribute_pins n 4 = some (distribute_contacts n 4) ∧
    (n % 3 = 0 → distribute_pins n 3 = some (distribute_contacts n 3)) ∧
    (n % 3 ≠ 0 → distribute_pins n 3 ≠ some (distribute_contacts n 3)) := by
  refine ⟨?_, ?_, ?_, ?_⟩
  · have hr : List.range 2 = [0, 1] := by decide
    simp [distribute_pins, distribute_contacts, hr]
    constructor
    · split <;> omega
    · split <;> omega
  · simp [distribute_pins, distribute_contacts]
  · intro h0
    have hr : List.range 3 = [0, 1, 2] := by decide
    simp [distribute_pins, distribute_contacts, h0, hr]
  · intro h0
    have hr : List.range 3 = [0, 1, 2] := by decide
    have hmod : n % 3 = 1 ∨ n % 3 = 2 := by omega
    rcases hmod with hm | hm <;>
      simp [distribute_pins, distribute_contacts, hm, hr]

/-- Witness for C3's amended theorem at n = 50. -/
theorem distribute_pins_eq_distribute_contacts_iff_witness :
    distribute_pins 50 3 ≠ some (distribute_contacts 50 3) :=
  (distribute_pins_eq_distribute_contacts_iff 50 (by decide)).2.2.2 (by decide)

/-- **C2.** For every counts list, positive `h_pitch`, and stagger list of
the same length, `row_offsets_for_counts` returns one offset per row, and
for each row i: when `stagger[i] = 0` (non-staggered group), the offset is
`stagger[i] + ⌊((G − counts[i]) * h_pitch / 2) / h_pitch⌋ * h_pitch` with G
the maximum count of the non-staggered group — in particular a whole
multiple of `h_pitch`; when `stagger[i] ≠ 0`, it is
`stagger[i] + (S − counts[i]) * h_pitch / 2` with S the maximum count of
the staggered group, without quantization. -/
theorem row_offsets_for_counts_spec (counts : List Nat) (h_pitch : ℚ)
    (stagger : List ℚ) (hp : 0 < h_pitch) (hlen : stagger.length = counts.length) :
    (row_offsets_for_counts counts h_pitch stagger).length = counts.length ∧
    (∀ i, i < counts.length →
      (row_offsets_for_counts counts h_pitch stagger).getD i 0 =
        if stagger.getD i 0 = 0 then
          stagger.getD i 0 +
            (⌊((group_max counts stagger true : ℚ) - (counts.getD i 0 : ℚ)) *
                h_pitch / 2 / h_pitch⌋ : ℚ) * h_pitch
        else
          stagger.getD i 0 +
            ((group_max counts stagger false : ℚ) - (counts.getD i 0 : ℚ)) *
              h_pitch / 2) ∧
    (∀ i, i < counts.length → stagger.getD i 0 = 0 →
      ∃ k : ℤ, (row_offsets_for_counts counts h_pitch stagger).getD i 0 =
        (k : ℚ) * h_pitch) := by
  have hGt : group_max counts stagger true =
      ((((List.range counts.length).filter
          (fun i => decide (stagger.getD i 0 = 0))).map
        (fun i => counts.getD i 0)).foldr max 0) := by
    simp [group_max]
  have hGf : group_max counts stagger false =
      ((((List.range counts.length).filter
          (fun i => !(decide (stagger.getD i 0 = 0)))).map
        (fun i => counts.getD i 0)).foldr max 0) := by
    simp [group_max]
  have hL : (row_offsets_for_counts counts h_pitch stagger).length = counts.length := by
    simp [row_offsets_for_counts]
  have h2 : ∀ i, i < counts.length →
      (row_offsets_for_counts counts h_pitch stagger).getD i 0 =
        if stagger.getD i 0 = 0 then
          stagger.getD i 0 +
            (⌊((group_max counts stagger true : ℚ) - (counts.getD i 0 : ℚ)) *
                h_pitch / 2 / h_pitch⌋ : ℚ) * h_pitch
        else
          stagger.getD i 0 +
            ((group_max counts stagger false : ℚ) - (counts.getD i 0 : ℚ)) *
              h_pitch / 2 := by
    intro i hi
    have hi' : i < (row_offsets_for_counts counts h_pitch stagger).length := by
      rw [hL]; exact hi
    rw [List.getD_eq_getElem _ _ hi']
    simp only [row_offsets_for_counts, List.getElem_map, List.getElem_range, hGt, hGf]
    split <;> rfl
  refine ⟨hL, h2, ?_⟩
  intro i hi hs
  refine ⟨⌊((group_max counts stagger true : ℚ) - (counts.getD i 0 : ℚ)) *
      h_pitch / 2 / h_pitch⌋, ?_⟩
  rw [h2 i hi, if_pos hs, hs, zero_add]

/-- Witness for C2 on the 9-9-8 split with unit pitch and a staggered
middle row. -/
theorem row_offsets_for_counts_spec_witness :
    (row_offsets_for_counts [9, 9, 8] 1 [0, 1/2, 0]).length = [9, 9, 8].length :=
  (row_offsets_for_counts_spec [9, 9, 8] 1 [0, 1/2, 0] (by norm_num) (by decide)).1

/-- Double x-negation is the identity on pin records. -/
theorem negX_negX (p : Pin) : negX (negX p) = p := by
  cases p; simp [negX]

/-- **C4.** Mirror laws of `generate_pin_positions`: for fixed view,
gender "female" equals gender "male" with every x negated (n, row, y
unchanged); for fixed gender, view "solder" equals view "outside" with
every x negated; consequently female+outside = male+solder and
female+solder = male+outside. -/
theorem generate_pin_positions_mirror (pin_count rows : Nat) (h v : ℚ)
    (rc : Option (List Nat)) (ro : Option (List ℚ)) (rom : Option ℚ)
    (view gender : String) :
    generate_pin_positions pin_count rows h v view "female" rc ro rom =
      Option.map (List.map negX)
        (generate_pin_positions pin_count rows h v view "male" rc ro rom) ∧
    generate_pin_positions pin_count rows h v "solder" gender rc ro rom =
      Option.map (List.map negX)
        (generate_pin_positions pin_count rows h v "outside" gender rc ro rom) ∧
    generate_pin_positions pin_count rows h v "outside" "female" rc ro rom =
      generate_pin_positions pin_count rows h v "solder" "male" rc ro rom ∧
    generate_pin_positions pin_count rows h v "solder" "female" rc ro rom =
      generate_pin_positions pin_count rows h v "outside" "male" rc ro rom ∧
    (∀ p : Pin, (negX p).n = p.n ∧ (negX p).row = p.row ∧ (negX p).y = p.y ∧
      (negX p).x = -p.x) := by
  cases hcore : pin_layout_core pin_count rows h v rc ro rom with
  | none =>
    refine ⟨?_, ?_, ?_, ?_, fun p => by simp [negX]⟩ <;>
      simp [generate_pin_positions, hcore]
  | some c =>
    refine ⟨?_, ?_, ?_, ?_, fun p => by simp [negX]⟩
    · by_cases hv : view = "solder" <;>
        simp [generate_pin_positions, hcore, hv]
    · by_cases hg : gender = "female" <;>
        simp [generate_pin_positions, hcore, hg]
    · simp [generate_pin_positions, hcore]
    · simp [generate_pin_positions, hcore, List.map_map, Function.comp_def, negX_negX]

/-- Shifting every element shifts a running foldl-minimum. -/
theorem foldl_min_map_sub (l : List ℚ) (a c : ℚ) :
    (l.map (fun x => x - c)).foldl min (a - c) = l.foldl min a - c := by
  induction l generalizing a with
  | nil => rfl
  | cons b t ih =>
    simp only [List.map_cons, List.foldl_cons, min_sub_sub_right]
    exact ih (min a b)

/-- Shifting every element shifts a running foldl-maximum. -/
theorem foldl_max_map_sub (l : List ℚ) (a c : ℚ) :
    (l.map (fun x => x - c)).foldl max (a - c) = l.foldl max a - c := by
  induction l generalizing a with
  | nil => rfl
  | cons b t ih =>
    simp only [List.map_cons, List.foldl_cons, max_sub_sub_right]
    exact ih (max a b)

/-- Negating every element turns a running foldl-minimum into the negated
foldl-maximum. -/
theorem foldl_min_map_neg (l : List ℚ) (a : ℚ) :
    (l.map (fun x => -x)).foldl min (-a) = -(l.foldl max a) := by
  induction l generalizing a with
  | nil => rfl
  | cons b t ih =>
    simp only [List.map_cons, List.foldl_cons, min_neg_neg]
    exact ih (max a b)

/-- Negating every element turns a running foldl-maximum into the negated
foldl-minimum. -/
theorem foldl_max_map_neg (l : List ℚ) (a : ℚ) :
    (l.map (fun x => -x)).foldl max (-a) = -(l.foldl min a) := by
  induction l generalizing a with
  | nil => rfl
  | cons b t ih =>
    simp only [List.map_cons, List.foldl_cons, max_neg_neg]
    exact ih (min a b)

/-- `qlistMin` under an elementwise shift, for nonempty lists. -/
theorem qlistMin_map_sub (l : List ℚ) (c : ℚ) (hl : l ≠ []) :
    qlistMin (l.map (fun x => x - c)) = qlistMin l - c := by
  cases l with
  | nil => exact absurd rfl hl
  | cons a t => simpa [qlistMin] using foldl_min_map_sub t a c

/-- `qlistMax` under an elementwise shift, for nonempty lists. -/
theorem qlistMax_map_sub (l : List ℚ) (c : ℚ) (hl : l ≠ []) :
    qlistMax (l.map (fun x => x - c)) = qlistMax l - c := by
  cases l with
  | nil => exact absurd rfl hl
  | cons a t => simpa [qlistMax] using foldl_max_map_sub t a c

/-- `qlistMin` of a negated list is the negated `qlistMax`, for nonempty
lists. -/
theorem qlistMin_map_neg (l : List ℚ) (hl : l ≠ []) :
    qlistMin (l.map (fun x => -x)) = -(qlistMax l) := by
  cases l with
  | nil => exact absurd rfl hl
  | cons a t => simpa [qlistMin, qlistMax] using foldl_min_map_neg t a

/-- `qlistMax` of a negated list is the negated `qlistMin`, for nonempty
lists. -/
theorem qlistMax_map_neg (l : List ℚ) (hl : l ≠ []) :
    qlistMax (l.map (fun x => -x)) = -(qlistMin l) := by
  cases l with
  | nil => exact absurd rfl hl
  | cons a t => simpa [qlistMax, qlistMin] using foldl_max_map_neg t a

/-- The centered list returned by `pin_layout_core` has bounding-box
centroid 0 on both axes. -/
theorem pin_layout_core_centroid (pin_count rows : Nat) (h v : ℚ)
    (rc : Option (List Nat)) (ro : Option (List ℚ)) (rom : Option ℚ)
    (c : List Pin)
    (hc : pin_layout_core pin_count rows h v rc ro rom = some c) :
    c ≠ [] ∧
    qlistMin (c.map Pin.x) + qlistMax (c.map Pin.x) = 0 ∧
    qlistMin (c.map Pin.y) + qlistMax (c.map Pin.y) = 0 := by
  obtain ⟨pins, hpne, rfl⟩ :
      ∃ pins : List Pin, pins ≠ [] ∧ c = centerPins pins := by
    unfold pin_layout_core at hc
    rw [Option.bind_eq_some] at hc
    obtain ⟨counts, -, hc⟩ := hc
    split at hc
    · simp at hc
    split at hc
    · simp at hc
    rw [Option.bind_eq_some] at hc
    obtain ⟨offsets, -, hc⟩ := hc
    split at hc
    · simp at hc
    rename_i hne
    refine ⟨buildPinsAux h v offsets 0 1 counts, by simpa using hne, ?_⟩
    exact (Option.some.injEq _ _ ▸ hc).symm
  set cx := (qlistMin (pins.map Pin.x) + qlistMax (pins.map Pin.x)) / 2 with hcx
  set cy := (qlistMin (pins.map Pin.y) + qlistMax (pins.map Pin.y)) / 2 with hcy
  have hcval : centerPins pins = pins.map (fun p => { p with x := p.x - cx, y := p.y - cy }) := rfl
  have hxs : (centerPins pins).map Pin.x = (pins.map Pin.x).map (fun x => x - cx) := by
    rw [hcval, List.map_map, List.map_map]; rfl
  have hys : (centerPins pins).map Pin.y = (pins.map Pin.y).map (fun y => y - cy) := by
    rw [hcval, List.map_map, List.map_map]; rfl
  have hxne : pins.map Pin.x ≠ [] := by simpa using hpne
  have hyne : pins.map Pin.y ≠ [] := by simpa using hpne
  refine ⟨?_, ?_, ?_⟩
  · rw [hcval]
    simpa using hpne
  · rw [hxs, qlistMin_map_sub _ _ hxne, qlistMax_map_sub _ _ hxne, hcx]
    ring
  · rw [hys, qlistMin_map_sub _ _ hyne, qlistMax_map_sub _ _ hyne, hcy]
    ring

/-- **C5.** Every pin list returned by `generate_pin_positions` — any
inputs, any gender, any view — has its bounding-box centroid at the
origin: `(min_x + max_x)/2 = 0` and `(min_y + max_y)/2 = 0`, after the
gender and view mirroring steps. -/
theorem generate_pin_positions_centroid (pin_count rows : Nat) (h v : ℚ)
    (view gender : String) (rc : Option (List Nat)) (ro : Option (List ℚ))
    (rom : Option ℚ) (pins : List Pin)
    (hp : generate_pin_positions pin_count rows h v view gender rc ro rom = some pins) :
    (qlistMin (pins.map Pin.x) + qlistMax (pins.map Pin.x)) / 2 = 0 ∧
    (qlistMin (pins.map Pin.y) + qlistMax (pins.map Pin.y)) / 2 = 0 := by
  unfold generate_pin_positions at hp
  cases hcore : pin_layout_core pin_count rows h v rc ro rom with
  | none => rw [hcore] at hp; exact absurd hp (by simp)
  | some c =>
    rw [hcore] at hp
    simp only [Option.map_some', Option.some.injEq] at hp
    obtain ⟨hcne, hx0, hy0⟩ :=
      pin_layout_core_centroid pin_count rows h v rc ro rom c hcore
    have step : ∀ l : List Pin, l ≠ [] →
        qlistMin (l.map Pin.x) + qlistMax (l.map Pin.x) = 0 →
        qlistMin (l.map Pin.y) + qlistMax (l.map Pin.y) = 0 →
        (l.map negX ≠ [] ∧
         qlistMin ((l.map negX).map Pin.x) + qlistMax ((l.map negX).map Pin.x) = 0 ∧
         qlistMin ((l.map negX).map Pin.y) + qlistMax ((l.map negX).map Pin.y) = 0) := by
      intro l hl hxl hyl
      have hx : (l.map negX).map Pin.x = (l.map Pin.x).map (fun x => -x) := by
        rw [List.map_map, List.map_map]; rfl
      have hy : (l.map negX).map Pin.y = l.map Pin.y := by
        rw [List.map_map]; rfl
      have hlx : l.map Pin.x ≠ [] := by simpa using hl
      refine ⟨by simpa using hl, ?_, by rw [hy]; exact hyl⟩
      rw [hx, qlistMin_map_neg _ hlx, qlistMax_map_neg _ hlx]
      linarith
    subst hp
    have hag : (if gender = "female" then c.map negX else c) ≠ [] ∧
        qlistMin (((if gender = "female" then c.map negX else c)).map Pin.x) +
          qlistMax (((if gender = "female" then c.map negX else c)).map Pin.x) = 0 ∧
        qlistMin (((if gender = "female" then c.map negX else c)).map Pin.y) +
          qlistMax (((if gender = "female" then c.map negX else c)).map Pin.y) = 0 := by
      by_cases hg : gender = "female"
      · rw [if_pos hg]
        exact step c hcne hx0 hy0
      · rw [if_neg hg]
        exact ⟨hcne, hx0, hy0⟩
    obtain ⟨hane, hax, hay⟩ := hag
    by_cases hv : view = "solder"
    · rw [if_pos hv]
      obtain ⟨-, hx, hy⟩ := step _ hane hax hay
      rw [hx, hy]
      norm_num
    · rw [if_neg hv]
      rw [hax, hay]
      norm_num


/-- Witness for C5 at a concrete single-pin layout. -/
theorem generate_pin_positions_centroid_witness :
    (qlistMin (([⟨1, 0, 0, 0⟩] : List Pin).map Pin.x) +
      qlistMax (([⟨1, 0, 0, 0⟩] : List Pin).map Pin.x)) / 2 = 0 ∧
    (qlistMin (([⟨1, 0, 0, 0⟩] : List Pin).map Pin.y) +
      qlistMax (([⟨1, 0, 0, 0⟩] : List Pin).map Pin.y)) / 2 = 0 :=
  generate_pin_positions_centroid 1 1 2 2 "outside" "male" (some [1]) (some [0]) none
    [⟨1, 0, 0, 0⟩]
    (by simp [generate_pin_positions, pin_layout_core, buildPinsAux, pinsForRow, centerPins,
      qlistMin, qlistMax, List.range_succ, List.range_zero])

/-- **C6, counterexample.** As stated the claim asserts the bottom edge is
always narrower than the top; that fails when the flange clamp pulls the
top width below `pin_w + 3`: with nominal opening 16.9 × 8.3, flange outer
width 10, pin box 10 × 2 (and the tan 10° factor ≈ 0.17632698) the bottom
edge is 13 and the top edge is 4.  The lower clamp binds, so the same
failure occurs for every nonnegative taper factor. -/
theorem opening_bottom_not_narrower :
    ¬ ((opening_geometry (169/10) (83/10) 10 10 2 (17632698/100000000)).bottom_w <
        (opening_geometry (169/10) (83/10) 10 10 2 (17632698/100000000)).top_w) := by
  norm_num [opening_geometry]

/-- **C6, amended.** The opening outline of `generate_svg` satisfies:
effective height = `max(nominal height, pin_h + 2*2.8)`; top edge width =
`min(max(nominal top width, pin_w + 2*3), flange_outer_width − 6)`; bottom
edge width = `max(top_w − 2*tan(10°)*h_eff, pin_w + 3)`; fillet radius =
`min(2.2, 0.22*h_eff, 0.18*top_w)`; and the bottom edge is strictly
narrower than the top whenever the taper factor is positive, the pin box
height is nonnegative, and the top width stays above `pin_w + 3`. -/
theorem opening_geometry_spec (otw oh ow pw ph t : ℚ) :
    (opening_geometry otw oh ow pw ph t).h_eff = max oh (ph + 2 * (28/10)) ∧
    (opening_geometry otw oh ow pw ph t).top_w = min (max otw (pw + 2 * 3)) (ow - 6) ∧
    (opening_geometry otw oh ow pw ph t).bottom_w =
      max ((opening_geometry otw oh ow pw ph t).top_w -
        2 * t * (opening_geometry otw oh ow pw ph t).h_eff) (pw + 3) ∧
    (opening_geometry otw oh ow pw ph t).corner_r =
      min (22/10) (min ((opening_geometry otw oh ow pw ph t).h_eff * (22/100))
        ((opening_geometry otw oh ow pw ph t).top_w * (18/100))) ∧
    (0 < t → 0 ≤ ph → pw + 3 < (opening_geometry otw oh ow pw ph t).top_w →
      (opening_geometry otw oh ow pw ph t).bottom_w <
        (opening_geometry otw oh ow pw ph t).top_w) := by
  refine ⟨rfl, rfl, rfl, rfl, ?_⟩
  intro ht hph hlt
  simp only [opening_geometry] at hlt ⊢
  apply max_lt
  · have hh : (0 : ℚ) < max oh (ph + 2 * (28/10)) := by
      have := le_max_right oh (ph + 2 * (28/10))
      linarith
    have := mul_pos ht hh
    linarith
  · exact hlt

/-- Witness for C6's amended theorem: a DB-25-like male shell (nominal
opening 38.95 × 8.3, flange 63.5) with a 41.1 × 2.84 pin box. -/
theorem opening_geometry_spec_witness :
    (opening_geometry (3895/100) (83/10) (635/10) (411/10) (284/100) (1763/10000)).bottom_w <
      (opening_geometry (3895/100) (83/10) (635/10) (411/10) (284/100) (1763/10000)).top_w :=
  (opening_geometry_spec (3895/100) (83/10) (635/10) (411/10) (284/100) (1763/10000)).2.2.2.2
    (by norm_num) (by norm_num) (by norm_num [opening_geometry])

/-- **C7.** In `rounded_polygon_path`, every vertex that contributes a
fillet gets tangent length `min(raw, 0.49*d_prev, 0.49*d_next)` — never
more than 0.49 times the shorter adjacent edge, whatever the raw
`radius/tan(angle/2)` value (hence also at near-180° vertices, where the
raw value is tiny anyway) — and a vertex whose clamped dot product gives
interior angle 0 through the arccosine contributes no fillet. -/
theorem rounded_polygon_tangent_clamp (dot rawT dPrev dNext : ℚ) :
    (∀ t, vertex_fillet dot rawT dPrev dNext = some t →
      t = clamped_tangent rawT dPrev dNext ∧ t ≤ 49/100 * min dPrev dNext) ∧
    (1 ≤ dot → vertex_fillet dot rawT dPrev dNext = none) := by
  constructor
  · intro t ht
    have hval : t = clamped_tangent rawT dPrev dNext := by
      unfold vertex_fillet at ht
      split at ht
      · simp at ht
      · exact (Option.some.injEq _ _ ▸ ht).symm
    refine ⟨hval, ?_⟩
    rw [hval]
    unfold clamped_tangent
    have hm : min (dPrev * (49/100)) (dNext * (49/100)) = 49/100 * min dPrev dNext := by
      rcases le_total dPrev dNext with hle | hle
      · rw [min_eq_left hle, min_eq_left (by nlinarith)]
        ring
      · rw [min_eq_right hle, min_eq_right (by nlinarith)]
        ring
    rw [← hm]
    exact min_le_right _ _
  · intro hdot
    unfold vertex_fillet
    rw [if_pos hdot]

/-- Witness for C7: a right-angle vertex (dot 0, raw tangent 5, edges 2
and 3) is clamped to 0.98 ≤ 0.98, and a straight-through vertex (dot 1)
is skipped. -/
theorem rounded_polygon_tangent_clamp_witness :
    clamped_tangent 5 2 3 ≤ 49/100 * min 2 3 ∧ vertex_fillet 1 5 2 3 = none :=
  ⟨((rounded_polygon_tangent_clamp 0 5 2 3).1 (clamped_tangent 5 2 3)
      (by norm_num [vertex_fillet])).2,
    (rounded_polygon_tangent_clamp 1 5 2 3).2 (by norm_num)⟩

/-- Characters of a `replaceRuns` output: either a surviving input
character that passes the class test, or the replacement character. -/
theorem replaceRuns_mem (p : Char → Bool) (r : Char) :
    ∀ l : List Char, ∀ c ∈ replaceRuns p r l, (c ∈ l ∧ p c = true) ∨ c = r := by
  intro l
  induction l with
  | nil => intro c hc; simp [replaceRuns] at hc
  | cons a t ih =>
    cases t with
    | nil =>
      intro c hc
      by_cases hp : p a
      · simp only [replaceRuns, if_pos hp, List.mem_singleton] at hc
        exact Or.inl ⟨by simp [hc], hc ▸ hp⟩
      · simp only [replaceRuns, if_neg hp, List.mem_singleton] at hc
        exact Or.inr hc
    | cons b u =>
      intro c hc
      by_cases hpa : p a
      · simp only [replaceRuns, if_pos hpa, List.mem_cons] at hc
        rcases hc with rfl | hc
        · exact Or.inl ⟨by simp, hpa⟩
        · rcases ih c hc with ⟨hm, hpc⟩ | hr
          · exact Or.inl ⟨List.mem_cons_of_mem _ hm, hpc⟩
          · exact Or.inr hr
      · by_cases hpb : p b
        · simp only [replaceRuns, if_neg hpa, if_pos hpb, List.mem_cons] at hc
          rcases hc with rfl | hc
          · exact Or.inr rfl
          · rcases ih c hc with ⟨hm, hpc⟩ | hr
            · exact Or.inl ⟨List.mem_cons_of_mem _ hm, hpc⟩
            · exact Or.inr hr
        · simp only [replaceRuns, if_neg hpa, if_neg hpb] at hc
          rcases ih c hc with ⟨hm, hpc⟩ | hr
          · exact Or.inl ⟨List.mem_cons_of_mem _ hm, hpc⟩
          · exact Or.inr hr

/-- When the run head passes the class test it survives in front. -/
theorem replaceRuns_cons_of_pos (p : Char → Bool) (r : Char) (d : Char)
    (rest : List Char) (hd : p d = true) :
    ∃ tl, replaceRuns p r (d :: rest) = d :: tl := by
  cases rest with
  | nil => exact ⟨[], by simp [replaceRuns, hd]⟩
  | cons e u => exact ⟨replaceRuns p r (e :: u), by simp [replaceRuns, hd]⟩

/-- A `replaceRuns` output never has two adjacent characters that both
fail the class test. -/
theorem replaceRuns_chain (p : Char → Bool) (r : Char) :
    ∀ l : List Char,
      List.Chain' (fun a b => p a = true ∨ p b = true) (replaceRuns p r l) := by
  intro l
  induction l with
  | nil => simp [replaceRuns]
  | cons a t ih =>
    cases t with
    | nil => by_cases hp : p a <;> simp [replaceRuns, hp]
    | cons b u =>
      by_cases hpa : p a
      · simp only [replaceRuns, if_pos hpa]
        exact List.chain'_cons'.mpr ⟨fun y _ => Or.inl hpa, ih⟩
      · by_cases hpb : p b
        · simp only [replaceRuns, if_neg hpa, if_pos hpb]
          obtain ⟨tl, htl⟩ := replaceRuns_cons_of_pos p r b u hpb
          rw [htl]
          refine List.chain'_cons'.mpr ⟨?_, ?_⟩
          · intro y hy
            simp at hy
            exact Or.inr (hy ▸ hpb)
          · rw [← htl]; exact ih
        · simp only [replaceRuns, if_neg hpa, if_neg hpb]
          exact ih

/-- `replaceRuns` fixes any list whose failing characters all equal the
replacement and never sit adjacent. -/
theorem replaceRuns_id (p : Char → Bool) (r : Char) :
    ∀ l : List Char, (∀ c ∈ l, p c = true ∨ c = r) →
      List.Chain' (fun a b => p a = true ∨ p b = true) l →
      replaceRuns p r l = l := by
  intro l
  induction l with
  | nil => intro _ _; rfl
  | cons a t ih =>
    intro hmem hch
    cases t with
    | nil =>
      by_cases hp : p a
      · simp [replaceRuns, hp]
      · have ha : a = r := (hmem a (by simp)).resolve_left hp
        simp [replaceRuns, hp, ha]
    | cons b u =>
      have hch' := List.chain'_cons.mp hch
      have hmem' : ∀ c ∈ b :: u, p c = true ∨ c = r :=
        fun c hc => hmem c (List.mem_cons_of_mem _ hc)
      by_cases hpa : p a
      · simp only [replaceRuns, if_pos hpa]
        rw [ih hmem' hch'.2]
      · have ha : a = r := (hmem a (by simp)).resolve_left hpa
        have hpb : p b = true := hch'.1.resolve_left hpa
        simp only [replaceRuns, if_neg hpa, if_pos hpb]
        rw [ih hmem' hch'.2, ha]

/-- The head surviving a `dropWhile` fails the dropped predicate. -/
theorem dropWhile_head?_false (p : Char → Bool) :
    ∀ (l : List Char) (a : Char), (l.dropWhile p).head? = some a → p a = false := by
  intro l
  induction l with
  | nil => intro a h; simp at h
  | cons c t ih =>
    intro a h
    by_cases hp : p c
    · rw [List.dropWhile_cons_of_pos hp] at h
      exact ih a h
    · rw [List.dropWhile_cons_of_neg hp] at h
      simp only [List.head?_cons, Option.some.injEq] at h
      rw [← h]
      simpa using hp

/-- A nonempty `dropWhile` keeps the original last element. -/
theorem dropWhile_getLast?_of_ne_nil (p : Char → Bool) :
    ∀ l : List Char, l.dropWhile p ≠ [] →
      (l.dropWhile p).getLast? = l.getLast? := by
  intro l
  induction l with
  | nil => intro h; simp at h
  | cons c t ih =>
    intro h
    by_cases hp : p c
    · rw [List.dropWhile_cons_of_pos hp] at h ⊢
      rw [ih h]
      have ht : t ≠ [] := by
        intro h0
        rw [h0] at h
        simp at h
      cases t with
      | nil => exact absurd rfl ht
      | cons b u => rw [List.getLast?_cons_cons]
    · rw [List.dropWhile_cons_of_neg hp]

/-- `dropWhile` is the identity when no element is dropped. -/
theorem dropWhile_eq_self_of_all (p : Char → Bool) (l : List Char)
    (h : ∀ c ∈ l, p c = false) : l.dropWhile p = l := by
  cases l with
  | nil => rfl
  | cons c t => exact List.dropWhile_cons_of_neg (by simp [h c (by simp)])

/-- `stripChar` yields a contiguous infix of its input. -/
theorem stripChar_within (r : Char) (l : List Char) : stripChar r l <:+: l := by
  have h1 : l.dropWhile (fun c => c == r) <:+ l := List.dropWhile_suffix _
  have h2 : (l.dropWhile (fun c => c == r)).reverse.dropWhile (fun c => c == r) <:+
      (l.dropWhile (fun c => c == r)).reverse := List.dropWhile_suffix _
  have h3 := List.reverse_prefix.mpr h2
  rw [List.reverse_reverse] at h3
  exact h3.isInfix.trans h1.isInfix

/-- The head left by `stripChar` is never the stripped character. -/
theorem stripChar_head? (r : Char) (l : List Char) :
    (stripChar r l).head? ≠ some r := by
  unfold stripChar
  intro hcon
  rw [List.head?_reverse] at hcon
  set u := l.dropWhile (fun c => c == r) with hu
  have hvne : u.reverse.dropWhile (fun c => c == r) ≠ [] := by
    intro h0
    rw [h0] at hcon
    simp at hcon
  rw [dropWhile_getLast?_of_ne_nil _ _ hvne, List.getLast?_reverse] at hcon
  have := dropWhile_head?_false (fun c => c == r) l r (hu ▸ hcon)
  simp at this

/-- The last character left by `stripChar` is never the stripped
character. -/
theorem stripChar_getLast? (r : Char) (l : List Char) :
    (stripChar r l).getLast? ≠ some r := by
  unfold stripChar
  intro hcon
  rw [List.getLast?_reverse] at hcon
  have := dropWhile_head?_false (fun c => c == r) _ r hcon
  simp at this

/-- `stripChar` fixes a list that neither starts nor ends with the
stripped character. -/
theorem stripChar_eq_self (r : Char) (l : List Char)
    (hh : l.head? ≠ some r) (hl : l.getLast? ≠ some r) : stripChar r l = l := by
  unfold stripChar
  have h1 : l.dropWhile (fun c => c == r) = l := by
    cases l with
    | nil => rfl
    | cons c t =>
      apply List.dropWhile_cons_of_neg
      simp only [List.head?_cons, ne_eq, Option.some.injEq] at hh
      simp [hh]
  rw [h1]
  have h2 : l.reverse.dropWhile (fun c => c == r) = l.reverse := by
    cases hrev : l.reverse with
    | nil => rfl
    | cons c t =>
      apply List.dropWhile_cons_of_neg
      have : l.reverse.head? = some c := by rw [hrev]; rfl
      rw [List.head?_reverse] at this
      have hcr : c ≠ r := by
        intro h0
        exact hl (h0 ▸ this)
      simp [hcr]
  rw [h2, List.reverse_reverse]

/-- Unfolds the sanitizer pipeline. -/
theorem sanitize_stem_eq (l : List Char) :
    sanitize_stem l =
      stripChar '_' (replaceRuns (fun c => !(c == '_')) '_'
        (replaceRuns isLowerAlnum '_' ((pyStrip l).map pyToLower))) := rfl

/-- Every sanitizer output is in the sanitized normal form. -/
theorem sanitize_stem_sanitizedForm (l : List Char) :
    SanitizedForm (sanitize_stem l) := by
  rw [sanitize_stem_eq]
  set s1 := (pyStrip l).map pyToLower with hs1
  set s2 := replaceRuns isLowerAlnum '_' s1 with hs2
  set s3 := replaceRuns (fun c => !(c == '_')) '_' s2 with hs3
  refine ⟨?_, ?_, ?_, ?_⟩
  · intro c hc
    have hc3 : c ∈ s3 := (stripChar_within '_' s3).subset hc
    rcases replaceRuns_mem _ _ s2 c hc3 with ⟨hm2, -⟩ | rfl
    · rcases replaceRuns_mem _ _ s1 c hm2 with ⟨-, halnum⟩ | rfl
      · exact Or.inl halnum
      · exact Or.inr rfl
    · exact Or.inr rfl
  · have hch3 := replaceRuns_chain (fun c => !(c == '_')) '_' s2
    have hch3' : List.Chain' (fun a b => ¬(a = '_' ∧ b = '_')) s3 := by
      refine hch3.imp ?_
      intro a b hab
      rcases hab with h | h <;> simp at h <;> tauto
    exact hch3'.infix (stripChar_within '_' s3)
  · exact stripChar_head? '_' s3
  · exact stripChar_getLast? '_' s3

/-- No two adjacent underscores among alnum-or-underscore characters means
each adjacent pair contains an alphanumeric. -/
theorem chain_underscore_to_alnum :
    ∀ l : List Char, (∀ c ∈ l, isLowerAlnum c = true ∨ c = '_') →
      List.Chain' (fun a b => ¬(a = '_' ∧ b = '_')) l →
      List.Chain' (fun a b => isLowerAlnum a = true ∨ isLowerAlnum b = true) l := by
  intro l
  induction l with
  | nil => intro _ _; simp
  | cons a t ih =>
    intro hmem hch
    cases t with
    | nil => simp
    | cons b u =>
      rw [List.chain'_cons] at hch ⊢
      refine ⟨?_, ih (fun c hc => hmem c (List.mem_cons_of_mem _ hc)) hch.2⟩
      rcases hmem a (by simp) with ha | ha
      · exact Or.inl ha
      · rcases hmem b (by simp) with hb | hb
        · exact Or.inr hb
        · exact absurd ⟨ha, hb⟩ hch.1

/-- The sanitizer fixes every list already in sanitized normal form. -/
theorem sanitizedForm_fixed (l : List Char) (hn : SanitizedForm l) :
    sanitize_stem l = l := by
  obtain ⟨hmem, hch, hh, hl⟩ := hn
  have hnospace : ∀ c ∈ l, pyIsSpace c = false := by
    intro c hc
    rcases hmem c hc with h | rfl
    · simp [isLowerAlnum] at h
      simp [pyIsSpace]
      omega
    · decide
  have hstrip : pyStrip l = l := by
    unfold pyStrip
    rw [dropWhile_eq_self_of_all _ _ hnospace,
      dropWhile_eq_self_of_all _ _ (fun c hc => hnospace c (List.mem_reverse.mp hc)),
      List.reverse_reverse]
  have hlower : l.map pyToLower = l := by
    have hfix : ∀ c ∈ l, pyToLower c = c := by
      intro c hc
      rcases hmem c hc with h | rfl
      · simp [isLowerAlnum] at h
        unfold pyToLower
        rw [if_neg]
        simp
        omega
      · decide
    have h2 : l.map pyToLower = l.map (fun c => c) := List.map_congr_left hfix
    simpa using h2
  have hrr1 : replaceRuns isLowerAlnum '_' l = l :=
    replaceRuns_id _ _ l hmem (chain_underscore_to_alnum l hmem hch)
  have hmem2 : ∀ c ∈ l, (!(c == '_')) = true ∨ c = '_' := by
    intro c _
    by_cases hc : c = '_'
    · exact Or.inr hc
    · exact Or.inl (by simp [hc])
  have hch2 : List.Chain' (fun a b => (!(a == '_')) = true ∨ (!(b == '_')) = true) l := by
    refine hch.imp ?_
    intro a b hab
    rcases not_and_or.mp hab with h | h
    · exact Or.inl (by simp [h])
    · exact Or.inr (by simp [h])
  have hrr2 : replaceRuns (fun c => !(c == '_')) '_' l = l :=
    replaceRuns_id _ _ l hmem2 hch2
  rw [sanitize_stem_eq, hstrip, hlower, hrr1, hrr2]
  exact stripChar_eq_self _ _ hh hl

/-- **C9.** `sanitize_stem` is idempotent and its output is in normal
form: only lowercase ASCII alphanumerics and underscores, no two adjacent
underscores (each maximal non-alphanumeric run became a single one), and
no leading or trailing underscore. -/
theorem sanitize_stem_spec (l : List Char) :
    sanitize_stem (sanitize_stem l) = sanitize_stem l ∧
    (∀ c ∈ sanitize_stem l, isLowerAlnum c = true ∨ c = '_') ∧
    List.Chain' (fun a b => ¬(a = '_' ∧ b = '_')) (sanitize_stem l) ∧
    (sanitize_stem l).head? ≠ some '_' ∧
    (sanitize_stem l).getLast? ≠ some '_' := by
  obtain ⟨h1, h2, h3, h4⟩ := sanitize_stem_sanitizedForm l
  exact ⟨sanitizedForm_fixed _ (sanitize_stem_sanitizedForm l), h1, h2, h3, h4⟩

/-- **C8, counterexample.** As stated the claim covers every connector
with `sum(contacts_per_row) ≠ total_contacts` or
`len(contacts_per_row) ≠ rows`; a connector whose `contacts_per_row` is
present but EMPTY has sum 0 ≠ 5 and length 0 ≠ 2, yet both checks are
guarded by the truthiness test `if row_counts and ...`, so `load_specs`
reports nothing and completes. -/
theorem load_specs_empty_counts_no_abort :
    (([] : List Nat).sum ≠ 5 ∧ ([] : List Nat).length ≠ 2) ∧
    item_empty_counts.insert.contacts_per_row = some [] ∧
    item_empty_counts.insert.total_contacts = some 5 ∧
    item_empty_counts.insert.rows = some 2 ∧
    validate_connector item_empty_counts = [] ∧
    (load_specs [item_empty_counts]).toOption.isSome = true := by
  refine ⟨by decide, rfl, rfl, rfl, rfl, rfl⟩

/-- **C8, amended.** For every catalog: if some connector has a NONEMPTY
`contacts_per_row` whose sum differs from its (falsy-defaulted) total or
whose length differs from its (falsy-defaulted) row count, then that
connector contributes at least one error, every one of its errors appears
in the combined report, `load_specs` aborts with the full combined report
collected across all connectors, and `generate_all` propagates the same
abort before rendering anything. -/
theorem load_specs_batch_validation (catalog : List CatalogItem) (cap : Bool)
    (t : ℚ) (item : CatalogItem) (hmem : item ∈ catalog)
    (hne : (item.insert.contacts_per_row).getD [] ≠ [])
    (hviol :
      ((item.insert.contacts_per_row).getD []).sum ≠
          pyOrNat item.insert.total_contacts 0 ∨
        pyOrNat item.insert.rows ((item.insert.contacts_per_row).getD []).length ≠
          ((item.insert.contacts_per_row).getD []).length) :
    validate_connector item ≠ [] ∧
    (∀ e ∈ validate_connector item, e ∈ (catalog.map validate_connector).flatten) ∧
    load_specs catalog =
      .error (.validation ((catalog.map validate_connector).flatten)) ∧
    generate_all catalog cap t =
      .error (.validation ((catalog.map validate_connector).flatten)) := by
  have h1 : validate_connector item ≠ [] := by
    simp only [validate_connector]
    rcases hviol with h | h
    · intro h0
      rw [if_pos ⟨hne, h⟩] at h0
      simp at h0
    · intro h0
      rcases List.append_eq_nil.mp h0 with ⟨-, h0'⟩
      rw [if_pos ⟨hne, h⟩] at h0'
      simp at h0'
  have hvmem : validate_connector item ∈ catalog.map validate_connector :=
    List.mem_map_of_mem _ hmem
  have h2 : ∀ e ∈ validate_connector item,
      e ∈ (catalog.map validate_connector).flatten := by
    intro e he
    exact List.mem_flatten.mpr ⟨validate_connector item, hvmem, he⟩
  have hjoin_ne : (catalog.map validate_connector).flatten ≠ [] := by
    obtain ⟨e, he⟩ := List.exists_mem_of_ne_nil _ h1
    exact List.ne_nil_of_mem (h2 e he)
  have h3 : load_specs catalog =
      .error (.validation ((catalog.map validate_connector).flatten)) := by
    simp only [load_specs]
    rw [if_pos hjoin_ne]
  refine ⟨h1, h2, h3, ?_⟩
  simp only [generate_all, h3]

/-- Witness for C8's amended theorem: a one-connector catalog summing
2+2 = 4 against a declared total of 5. -/
theorem load_specs_batch_validation_witness :
    validate_connector item_bad_sum ≠ [] :=
  (load_specs_batch_validation [item_bad_sum] true 0 item_bad_sum
    (by simp) (by decide) (Or.inl (by decide))).1

/-- **C10.** `generate_svg` is a pure function of its inputs: the
`SHELL_GEOMETRY` state it receives comes back unchanged (the code only
reads the table, and `spec` is a frozen record), and two invocations on
equal (spec, gender, view, caption) inputs over the same table produce
the identical document. -/
theorem generate_svg_pure (tbl : ShellTable) (spec : DSubSpec)
    (gender view : String) (cap : Bool) (tanT : ℚ) :
    (generate_svg tbl spec gender view cap tanT).2 = tbl ∧
    (∀ spec2 g2 v2 cap2, spec2 = spec → g2 = gender → v2 = view → cap2 = cap →
      (generate_svg tbl spec2 g2 v2 cap2 tanT).1 =
        (generate_svg tbl spec gender view cap tanT).1) := by
  refine ⟨rfl, ?_⟩
  intro spec2 g2 v2 cap2 h1 h2 h3 h4
  rw [h1, h2, h3, h4]

/-- Witness for C10 on the DE-9 sample over the real table. -/
theorem generate_svg_pure_witness :
    (generate_svg SHELL_GEOMETRY sample_spec "male" "outside" true (1763/10000)).1 =
      (generate_svg SHELL_GEOMETRY sample_spec "male" "outside" true (1763/10000)).1 :=
  (generate_svg_pure SHELL_GEOMETRY sample_spec "male" "outside" true
    (1763/10000)).2 sample_spec "male" "outside" true rfl rfl rfl rfl
